import Mathlib

/-!
Verification of the py2cs translation engine (py2cs.py), a single-pass
syntax-directed Python-AST to C# text generator.

Embedding conventions:
* Python AST nodes are modelled by one inductive type `Node`, mirroring the
  dynamically-typed objects the walker dispatches on with isinstance checks.
  Node kinds the walker never destructures (ast.Try, ast.List, ...) are
  modelled as constructors without fields; a few representatives of each
  family are included so that the "any other kind" clauses are statable.
  Python None (an absent value, e.g. an absent return annotation) is the
  constructor `noneNode`, whose class name is "NoneType".
* Operator objects (ast.Add, ast.Lt, ...) are the enumeration `Op`;
  `Op.className` is the Python expression op.__class__.__name__.
* A raised Python exception is an `Except.error` value carrying an `Err`;
  it aborts the surrounding computation exactly as the source's fail-fast
  exception propagation does.  The error constructors carry the offending
  class/attribute name rather than the full interpolated message text.
* Numeric literals are modelled with integer values; str(n) is toString.
-/

namespace Py2cs

/-- Operator tag: the class of a Python ast operator object.  Covers the
binary, boolean, unary and comparison operator classes of the ast module. -/
inductive Op where
  | add | sub | mult | matMult | div | mod | pow | lshift | rshift
  | bitOr | bitXor | bitAnd | floorDiv
  | and_ | or_
  | invert | not_ | uAdd | uSub
  | eq | notEq | lt | ltE | gt | gtE | is_ | isNot | in_ | notIn
  deriving DecidableEq

/-- op.__class__.__name__ for an operator object. -/
def Op.className : Op → String
  | .add => "Add"
  | .sub => "Sub"
  | .mult => "Mult"
  | .matMult => "MatMult"
  | .div => "Div"
  | .mod => "Mod"
  | .pow => "Pow"
  | .lshift => "LShift"
  | .rshift => "RShift"
  | .bitOr => "BitOr"
  | .bitXor => "BitXor"
  | .bitAnd => "BitAnd"
  | .floorDiv => "FloorDiv"
  | .and_ => "And"
  | .or_ => "Or"
  | .invert => "Invert"
  | .not_ => "Not"
  | .uAdd => "UAdd"
  | .uSub => "USub"
  | .eq => "Eq"
  | .notEq => "NotEq"
  | .lt => "Lt"
  | .ltE => "LtE"
  | .gt => "Gt"
  | .gtE => "GtE"
  | .is_ => "Is"
  | .isNot => "IsNot"
  | .in_ => "In"
  | .notIn => "NotIn"

/-- Errors raised by the walker.  The first three model the source's
Exception("Unsupported ... type: ...") raises (py2cs.py lines 67, 307, 349),
carrying the offending class name; `attributeError` and `indexError` model
the Python AttributeError / IndexError that the source can run into when a
node lacks an accessed field or a list index is out of range. -/
inductive Err where
  | unsupportedStatement (kind : String)
  | unsupportedExpression (kind : String)
  | unsupportedOperator (kind : String)
  | attributeError (attr : String)
  | indexError (msg : String)
  deriving DecidableEq

/-- get_bin_op_symbol (py2cs.py lines 311-350): maps the operator class name
to the literal symbol; any other operator raises an unsupported-operator
error. -/
def get_bin_op_symbol (op : Op) : Except Err String :=
  match op with
  | .add => .ok "+"
  | .sub => .ok "-"
  | .mult => .ok "*"
  | .div => .ok "/"
  | .mod => .ok "%"
  | .pow => .ok "**"
  | .lshift => .ok "<<"
  | .rshift => .ok ">>"
  | .bitOr => .ok "|"
  | .bitXor => .ok "^"
  | .bitAnd => .ok "&"
  | .floorDiv => .ok "//"
  | .eq => .ok "=="
  | .notEq => .ok "!="
  | .lt => .ok "<"
  | .ltE => .ok "<="
  | .gt => .ok ">"
  | .gtE => .ok ">="
  | _ => .error (.unsupportedOperator op.className)

/-- The ast.arguments object of a function or lambda: the walker only reads
the name of each positional argument (argument.arg), so the parameter list
is modelled as the list of those names. -/
structure Arguments where
  args : List String
  deriving DecidableEq

/-- walk_argument_list (py2cs.py lines 466-475): every parameter is rendered
with the fixed marker type "dynamic". -/
def walk_argument_list (argument_list : Arguments) : String :=
  String.intercalate ", " (argument_list.args.map (fun argument => "dynamic " ++ argument))

/-- lookup_call_builtins (py2cs.py lines 410-416). -/
def lookup_call_builtins (function_name : String) : String :=
  if function_name = "print" then "Console.WriteLine"
  else if function_name = "input" then "Console.ReadLine"
  else function_name

/-- Python AST nodes, with exactly the fields the walker reads.  The first
eight constructors are the supported statement kinds, the next nine the
expression kinds the expression walker dispatches on, `noneNode` is Python
None, and the remaining constructors are representatives of unsupported node
kinds (never destructured by the source, hence modelled without fields). -/
inductive Node where
  | functionDef (name : String) (args : Arguments) (body : List Node) (returns : Node)
  | classDef (name : String) (bases : List Node) (body : List Node)
  | ret (value : Node)
  | assign (targets : List Node) (value : Node)
  | forLoop (target : Node) (iter : Node) (body : List Node) (orelse : List Node)
  | whileLoop (test : Node) (body : List Node) (orelse : List Node)
  | ifStmt (test : Node) (body : List Node) (orelse : List Node)
  | exprStmt (value : Node)
  | binOp (left : Node) (op : Op) (right : Node)
  | boolOp (op : Op) (values : List Node)
  | compare (left : Node) (ops : List Op) (comparators : List Node)
  | unaryOp (op : Op) (operand : Node)
  | lambda (args : Arguments) (body : Node)
  | call (func : Node) (args : List Node)
  | num (n : Int)
  | str (s : String)
  | name (id : String)
  | noneNode
  | tryStmt
  | importStmt
  | passStmt
  | augAssign
  | listLit
  | dictLit
  | tupleLit
  | ifExp

/-- The Python class name of a node (what str(type(x)) names). -/
def Node.className : Node → String
  | .functionDef .. => "FunctionDef"
  | .classDef .. => "ClassDef"
  | .ret _ => "Return"
  | .assign .. => "Assign"
  | .forLoop .. => "For"
  | .whileLoop .. => "While"
  | .ifStmt .. => "If"
  | .exprStmt _ => "Expr"
  | .binOp .. => "BinOp"
  | .boolOp .. => "BoolOp"
  | .compare .. => "Compare"
  | .unaryOp .. => "UnaryOp"
  | .lambda .. => "Lambda"
  | .call .. => "Call"
  | .num _ => "Num"
  | .str _ => "Str"
  | .name _ => "Name"
  | .noneNode => "NoneType"
  | .tryStmt => "Try"
  | .importStmt => "Import"
  | .passStmt => "Pass"
  | .augAssign => "AugAssign"
  | .listLit => "List"
  | .dictLit => "Dict"
  | .tupleLit => "Tuple"
  | .ifExp => "IfExp"

/-- get_expression_return_type (py2cs.py lines 490-512).  The source checks
the listed isinstance cases, then expression == None, and otherwise recurses
on expression.value; of the modelled node kinds only Return, Assign and Expr
statements have a value field, so every other kind reaching the fallback
raises AttributeError (the source would crash there). -/
def get_expression_return_type : Node → Except Err String
  | .num _ => .ok "int"
  | .str _ => .ok "string"
  | .name _ => .ok "dynamic"
  | .call _ _ => .ok "dynamic"
  | .binOp _ _ _ => .ok "dynamic"
  | .compare _ _ _ => .ok "bool"
  | .unaryOp _ _ => .ok "dynamic"
  | .lambda _ _ => .ok "dynamic"
  | .functionDef _ _ _ _ => .ok "dynamic"
  | .noneNode => .ok "dynamic"
  | .ret value => get_expression_return_type value
  | .assign _ value => get_expression_return_type value
  | .exprStmt value => get_expression_return_type value
  | _ => .error (.attributeError "value")

mutual

/-- walk_statement (py2cs.py lines 40-67): kind dispatch for statements.
The per-kind source walkers (walk_function_def 70-96, walk_class_def 99-135
with walk_base_class_list 138-158 and walk_class_body 161-181, walk_return
184-193, walk_assign 196-208, walk_for 211-227, walk_while 230-245, walk_if
248-265) are inlined as match arms; block bodies use walk_stmt_pieces with
String.intercalate, which is walk_statements (268-271). -/
def walk_statement : Node → Except Err String
  -- walk_function_def: return type first, then parameters (pure), then body
  | .functionDef name args body returns => do
      let return_type ← get_expression_return_type returns
      let body_s ← walk_stmt_pieces body
      pure (return_type ++ " " ++ name ++ "(" ++ walk_argument_list args ++
        ") \x7b\n" ++ String.intercalate "\n" body_s ++ "\n\x7d")
  -- walk_class_def: the base-class separator " : " is emitted even with no bases
  | .classDef name bases body => do
      let base_class_list ← walk_expr_pieces bases
      let body_s ← walk_stmt_pieces body
      pure ("class " ++ name ++ " : " ++ String.intercalate ", " base_class_list ++
        " \x7b\n" ++ String.intercalate "\n" body_s ++ "\n\x7d")
  -- walk_return
  | .ret value => do
      let v ← walk_expression value
      pure ("return " ++ v ++ ";")
  -- walk_assign: the value's inferred type is computed first (line 208 evaluates
  -- left to right), then targets[0] only; an empty target list raises IndexError
  | .assign targets value => do
      let ty ← get_expression_return_type value
      match targets with
      | [] => .error (.indexError "list index out of range")
      | target :: _ => do
          let t ← walk_expression target
          let v ← walk_expression value
          pure (ty ++ " " ++ t ++ " = " ++ v ++ ";\n")
  -- walk_for: orelse is ignored by the source
  | .forLoop target iter body _ => do
      let t ← walk_expression target
      let i ← walk_expression iter
      let body_s ← walk_stmt_pieces body
      pure ("for (" ++ t ++ " = " ++ i ++ ") \x7b\n" ++
        String.intercalate "\n" body_s ++ "\n\x7d")
  -- walk_while: orelse is ignored by the source
  | .whileLoop test body _ => do
      let t ← walk_expression test
      let body_s ← walk_stmt_pieces body
      pure ("while (" ++ t ++ ") \x7b\n" ++ String.intercalate "\n" body_s ++ "\n\x7d")
  -- walk_if: line 262 branches on len(orelse) == 0 before emitting
  | .ifStmt test body orelse =>
      if orelse.length = 0 then do
        let t ← walk_expression test
        let body_s ← walk_stmt_pieces body
        pure ("if (" ++ t ++ ") \x7b\n\t" ++ String.intercalate "\n" body_s ++ "\x7d\n")
      else do
        let t ← walk_expression test
        let body_s ← walk_stmt_pieces body
        let orelse_s ← walk_stmt_pieces orelse
        pure ("if (" ++ t ++ ") \x7b\n\t" ++ String.intercalate "\n" body_s ++ "\x7d\n" ++
          "else \x7b\n\t" ++ String.intercalate "\n" orelse_s ++ "\x7d\n")
  -- lines 64-65: an Expr statement is its expression plus a terminator
  | .exprStmt value => do
      let v ← walk_expression value
      pure (v ++ ";\n")
  -- line 67: any other kind raises "Unsupported statement type"
  | s => .error (.unsupportedStatement s.className)

/-- The list comprehension of walk_statements (py2cs.py line 271): walks each
statement in order, aborting at the first raised error. -/
def walk_stmt_pieces : List Node → Except Err (List String)
  | [] => .ok []
  | statement :: rest => do
      let s ← walk_statement statement
      let others ← walk_stmt_pieces rest
      pure (s :: others)

/-- walk_expression (py2cs.py lines 274-308): kind dispatch for expressions.
The per-kind source walkers (walk_bin_op 353-365, walk_comp_op 368-380,
walk_unary_op 383-393, walk_lambda 396-407, walk_call 419-430, walk_num
433-441, walk_str 444-452, walk_name 455-463) are inlined as match arms. -/
def walk_expression : Node → Except Err String
  -- walk_bin_op: left, symbol, right (line 365, evaluated left to right)
  | .binOp left op right => do
      let l ← walk_expression left
      let sym ← get_bin_op_symbol op
      let r ← walk_expression right
      pure (l ++ " " ++ sym ++ " " ++ r)
  -- lines 290-291 route BoolOp to walk_bin_op too, but a BoolOp object carries
  -- op/values and has no left field, so bin_op.left (line 365) raises
  -- AttributeError('left') for every BoolOp before anything is emitted
  | .boolOp _ _ => .error (.attributeError "left")
  -- walk_comp_op: left, then the comprehension over the comparators
  | .compare left ops comparators => do
      let l ← walk_expression left
      let items ← comp_items ops comparators
      pure (l ++ " " ++ String.intercalate " " items)
  -- walk_unary_op: emits the operator class name, not a table symbol
  | .unaryOp op operand => do
      let s ← walk_expression operand
      pure (op.className ++ " " ++ s)
  -- walk_lambda
  | .lambda args body => do
      let b ← walk_expression body
      pure ("(" ++ walk_argument_list args ++ ") => " ++ b)
  -- walk_call: the callee text goes through the builtin table
  | .call func args => do
      let f ← walk_expression func
      let a ← walk_expr_pieces args
      pure (lookup_call_builtins f ++ "(" ++ String.intercalate ", " a ++ ")")
  -- walk_num: str(num.n)
  | .num n => .ok (toString n)
  -- walk_str: quotes with no escaping of the embedded text
  | .str s => .ok ("\"" ++ s ++ "\"")
  -- walk_name
  | .name id => .ok id
  -- lines 306-308: any other kind raises "Unsupported expression type"
  | e => .error (.unsupportedExpression e.className)

/-- The list comprehension of walk_expression_list (py2cs.py line 487). -/
def walk_expr_pieces : List Node → Except Err (List String)
  | [] => .ok []
  | expression :: rest => do
      let s ← walk_expression expression
      let others ← walk_expr_pieces rest
      pure (s :: others)

/-- The list comprehension of walk_comp_op (py2cs.py line 380): for each
index below len(comparators), ops[i] is read first (IndexError when ops is
the shorter list), then the symbol, then the comparator text. -/
def comp_items : List Op → List Node → Except Err (List String)
  | _, [] => .ok []
  | [], _ :: _ => .error (.indexError "list index out of range")
  | op :: ops, comparator :: comparators => do
      let sym ← get_bin_op_symbol op
      let s ← walk_expression comparator
      let rest ← comp_items ops comparators
      pure ((sym ++ " " ++ s) :: rest)

end

/-- walk_statements (py2cs.py lines 268-271). -/
def walk_statements (statements : List Node) : Except Err String := do
  let pieces ← walk_stmt_pieces statements
  pure (String.intercalate "\n" pieces)

/-- walk_expression_list (py2cs.py lines 478-487). -/
def walk_expression_list (expression_list : List Node) : Except Err String := do
  let pieces ← walk_expr_pieces expression_list
  pure (String.intercalate ", " pieces)

/-- The root ast.Module: the walker only reads its body. -/
structure Module where
  body : List Node

/-- The accumulation loop of walk_tree (py2cs.py lines 34-36): csharp starts
empty and each statement's text is appended in order. -/
def walk_tree_aux : String → List Node → Except Err String
  | acc, [] => .ok acc
  | acc, statement :: rest => do
      let piece ← walk_statement statement
      walk_tree_aux (acc ++ piece) rest

/-- walk_tree (py2cs.py lines 30-37). -/
def walk_tree (tree : Module) : Except Err String :=
  walk_tree_aux "" tree.body

/-- emit_csharp (py2cs.py lines 19-27): the complete text written to the
output file on success — the fixed prologue, the walked tree, and the two
closing braces.  (On an error the source leaves a truncated file; here the
error value is returned instead.) -/
def emit_csharp (tree : Module) : Except Err String := do
  let body ← walk_tree tree
  pure ("using System;\npublic class Program \x7b\n\tpublic static void Main(string[] args) \x7b\n"
    ++ body ++ "\x7d\n\x7d\n")

/-- Ordered concatenation of a list of text fragments (used to state the
driver property). -/
def concat_all : List String → String
  | [] => ""
  | piece :: rest => piece ++ concat_all rest

/-- The operator table of get_bin_op_symbol as an association list, in the
order the specification lists the eighteen supported tags. -/
def bin_op_table : List (Op × String) :=
  [(.add, "+"), (.sub, "-"), (.mult, "*"), (.div, "/"), (.mod, "%"), (.pow, "**"),
   (.floorDiv, "//"), (.lshift, "<<"), (.rshift, ">>"), (.bitOr, "|"), (.bitXor, "^"),
   (.bitAnd, "&"), (.eq, "=="), (.notEq, "!="), (.lt, "<"), (.ltE, "<="),
   (.gt, ">"), (.gtE, ">=")]

/-- The eighteen operator tags the table supports. -/
def supported_bin_ops : List Op := bin_op_table.map Prod.fst

/-- True when get_bin_op_symbol succeeds on the tag. -/
def opHasSymbol (op : Op) : Bool :=
  match get_bin_op_symbol op with
  | .ok _ => true
  | .error _ => false

/-- True when get_expression_return_type succeeds on the node. -/
def inferOk (e : Node) : Bool :=
  match get_expression_return_type e with
  | .ok _ => true
  | .error _ => false

/-- The eight statement kinds walk_statement dispatches on. -/
def isStmtKind : Node → Bool
  | .functionDef .. => true
  | .classDef .. => true
  | .ret _ => true
  | .assign .. => true
  | .forLoop .. => true
  | .whileLoop .. => true
  | .ifStmt .. => true
  | .exprStmt _ => true
  | _ => false

/-- The nine expression kinds walk_expression dispatches on. -/
def isExprKind : Node → Bool
  | .binOp .. => true
  | .boolOp .. => true
  | .compare .. => true
  | .unaryOp .. => true
  | .lambda .. => true
  | .call .. => true
  | .num _ => true
  | .str _ => true
  | .name _ => true
  | _ => false

mutual

/-- Statement nodes on which emission is designed to succeed: a supported
statement kind all of whose nested nodes are again supported.  (BoolOp is
excluded from the supported expressions because its emission always raises;
see walk_expression.) -/
def SupportedStmt : Node → Bool
  | .functionDef _ _ body returns => inferOk returns && SupportedStmtList body
  | .classDef _ bases body => SupportedExprList bases && SupportedStmtList body
  | .ret value => SupportedExpr value
  | .assign targets value =>
      (match targets with
       | [] => false
       | target :: _ => SupportedExpr target) && SupportedExpr value
  | .forLoop target iter body _ => SupportedExpr target && SupportedExpr iter &&
      SupportedStmtList body
  | .whileLoop test body _ => SupportedExpr test && SupportedStmtList body
  | .ifStmt test body orelse => SupportedExpr test && SupportedStmtList body &&
      SupportedStmtList orelse
  | .exprStmt value => SupportedExpr value
  | _ => false

def SupportedStmtList : List Node → Bool
  | [] => true
  | s :: rest => SupportedStmt s && SupportedStmtList rest

/-- Expression nodes on which emission is designed to succeed; comparisons
must carry as many operators as comparators, as the parser guarantees. -/
def SupportedExpr : Node → Bool
  | .binOp left op right => SupportedExpr left && opHasSymbol op && SupportedExpr right
  | .compare left ops comparators => SupportedExpr left &&
      (ops.length == comparators.length) && ops.all opHasSymbol &&
      SupportedExprList comparators
  | .unaryOp _ operand => SupportedExpr operand
  | .lambda _ body => SupportedExpr body
  | .call func args => SupportedExpr func && SupportedExprList args
  | .num _ => true
  | .str _ => true
  | .name _ => true
  | _ => false

def SupportedExprList : List Node → Bool
  | [] => true
  | e :: rest => SupportedExpr e && SupportedExprList rest

end

/-! Helper lemmas about the Except monad and string concatenation. -/

@[simp] lemma ok_bind {α β : Type} (a : α) (f : α → Except Err β) :
    (Except.ok a >>= f) = f a := rfl

@[simp] lemma error_bind {α β : Type} (e : Err) (f : α → Except Err β) :
    ((Except.error e : Except Err α) >>= f) = Except.error e := rfl

@[simp] lemma pure_eq_ok {α : Type} (a : α) : (pure a : Except Err α) = Except.ok a := rfl

lemma bind_eq_ok {α β : Type} {x : Except Err α} {f : α → Except Err β} {b : β} :
    x >>= f = Except.ok b ↔ ∃ a, x = Except.ok a ∧ f a = Except.ok b := by
  cases x with
  | error e => simp
  | ok a => simp

lemma eq_empty_of_length_eq_zero (s : String) (h : s.length = 0) : s = "" := by
  cases s with
  | mk data =>
    cases data with
    | nil => rfl
    | cons c cs => simp [String.length] at h

lemma append_ne_empty_right (a b : String) (h : b ≠ "") : a ++ b ≠ "" := by
  intro hc
  apply h
  have hlen := congrArg String.length hc
  rw [String.length_append] at hlen
  simp at hlen
  exact eq_empty_of_length_eq_zero b hlen.2

lemma walk_assign_cons (target : Node) (rest : List Node) (value : Node) :
    walk_statement (Node.assign (target :: rest) value) =
      (do
        let ty ← get_expression_return_type value
        let t ← walk_expression target
        let v ← walk_expression value
        pure (ty ++ " " ++ t ++ " = " ++ v ++ ";\n")) := rfl

/-- C1: the claim says a BooleanOp is rendered like a BinaryOp as
emit(left), symbol, emit(right).  The code routes BoolOp nodes to
walk_bin_op (py2cs.py lines 290-291), which reads bin_op.left (line 365);
a BoolOp object has fields op/values and no left field, so every BooleanOp
raises AttributeError('left') instead of returning any text — evaluated
here at the tree of the Python expression a and b. -/
theorem claim_C1_boolop_crashes :
    walk_expression (Node.boolOp Op.and_ [Node.name "a", Node.name "b"]) =
      Except.error (Err.attributeError "left") := rfl

/-- C3: get_bin_op_symbol maps exactly the eighteen supported tags to their
literal symbols (with ** and // emitted verbatim), and fails with an
UnsupportedOperator error naming the tag on every other operator tag. -/
theorem claim_C3_operator_table :
    (∀ p, p ∈ bin_op_table → get_bin_op_symbol p.1 = Except.ok p.2) ∧
    (∀ op, op ∉ supported_bin_ops →
      get_bin_op_symbol op = Except.error (Err.unsupportedOperator (Op.className op))) := by
  constructor
  · intro p hp
    fin_cases hp <;> rfl
  · intro op hop
    cases op <;> first | rfl | exact absurd (by decide) hop

/-- C3 witness: the table entry for Pow and the failure on NotIn, both by
the theorem at concrete operators. -/
theorem claim_C3_witness :
    ((Op.pow, "**") ∈ bin_op_table ∧ get_bin_op_symbol Op.pow = Except.ok "**") ∧
    (Op.notIn ∉ supported_bin_ops ∧
      get_bin_op_symbol Op.notIn = Except.error (Err.unsupportedOperator "NotIn")) :=
  ⟨⟨by decide, claim_C3_operator_table.1 (Op.pow, "**") (by decide)⟩,
   ⟨by decide, claim_C3_operator_table.2 Op.notIn (by decide)⟩⟩

/-- C4: the type inferencer is a pure function of syntactic shape — int for
numeric literals, string for string literals, bool for comparisons, dynamic
for identifiers, calls, binary operations, unary operations, lambdas and
function definitions, and dynamic for an absent expression. -/
theorem claim_C4_type_inference :
    (∀ n : Int, get_expression_return_type (Node.num n) = Except.ok "int") ∧
    (∀ s, get_expression_return_type (Node.str s) = Except.ok "string") ∧
    (∀ left ops comparators,
      get_expression_return_type (Node.compare left ops comparators) = Except.ok "bool") ∧
    (∀ id, get_expression_return_type (Node.name id) = Except.ok "dynamic") ∧
    (∀ func args, get_expression_return_type (Node.call func args) = Except.ok "dynamic") ∧
    (∀ left op right,
      get_expression_return_type (Node.binOp left op right) = Except.ok "dynamic") ∧
    (∀ op operand, get_expression_return_type (Node.unaryOp op operand) = Except.ok "dynamic") ∧
    (∀ args body, get_expression_return_type (Node.lambda args body) = Except.ok "dynamic") ∧
    (∀ name args body returns,
      get_expression_return_type (Node.functionDef name args body returns) = Except.ok "dynamic") ∧
    get_expression_return_type Node.noneNode = Except.ok "dynamic" :=
  ⟨fun _ => rfl, fun _ => rfl, fun _ _ _ => rfl, fun _ => rfl, fun _ _ => rfl,
   fun _ _ _ => rfl, fun _ _ => rfl, fun _ _ => rfl, fun _ _ _ _ => rfl, rfl⟩

/-- C5: builtin resolution maps print and input to the console calls,
returns every other identifier unchanged, and is total (a Lean function)
and idempotent. -/
theorem claim_C5_builtin_resolution :
    lookup_call_builtins "print" = "Console.WriteLine" ∧
    lookup_call_builtins "input" = "Console.ReadLine" ∧
    (∀ x, x ≠ "print" → x ≠ "input" → lookup_call_builtins x = x) ∧
    (∀ x, lookup_call_builtins (lookup_call_builtins x) = lookup_call_builtins x) := by
  refine ⟨rfl, rfl, ?_, ?_⟩
  · intro x h1 h2
    simp [lookup_call_builtins, h1, h2]
  · intro x
    by_cases h1 : x = "print"
    · subst h1; rfl
    · by_cases h2 : x = "input"
      · subst h2; rfl
      · simp [lookup_call_builtins, h1, h2]

/-- C5 witness: an identifier other than print and input resolves to
itself, by the theorem at the identifier abs. -/
theorem claim_C5_witness :
    ("abs" ≠ "print") ∧ ("abs" ≠ "input") ∧ lookup_call_builtins "abs" = "abs" :=
  ⟨by decide, by decide, claim_C5_builtin_resolution.2.2.1 "abs" (by decide) (by decide)⟩

/-- C6 counterexample: the statement x = 1 is emitted as "int x = 1;"
followed by a newline (walk_assign ends with ';\n', py2cs.py line 208), not
as the bare "int x = 1;" the claim states. -/
theorem claim_C6_counterexample :
    walk_statement (Node.assign [Node.name "x"] (Node.num 1)) = Except.ok "int x = 1;\n" ∧
    walk_statement (Node.assign [Node.name "x"] (Node.num 1)) ≠ Except.ok "int x = 1;" := by
  constructor
  · rfl
  · intro h
    have h2 : (Except.ok "int x = 1;\n" : Except Err String) = Except.ok "int x = 1;" := h
    injection h2 with h3
    exact absurd h3 (by decide)

/-- C6 as amended: an Assignment renders the inferred type of the value, a
space, the first target only, " = ", the value, and ";" followed by a
newline; targets after the first never appear. -/
theorem claim_C6_assignment :
    ∀ (target : Node) (rest : List Node) (value : Node),
      walk_statement (Node.assign (target :: rest) value) =
        (do
          let ty ← get_expression_return_type value
          let t ← walk_expression target
          let v ← walk_expression value
          pure (ty ++ " " ++ t ++ " = " ++ v ++ ";\n")) :=
  fun _ _ _ => rfl

/-- C7: a Conditional with empty orelse renders as
if (test) {  body  } with no else text, a Conditional with a non-empty
orelse appends the else block, and the scenario if (a < b): return a with
no else produces exactly "if (a < b) {\n\treturn a;}\n". -/
theorem claim_C7_conditional :
    (∀ test body, walk_statement (Node.ifStmt test body []) =
      (do
        let t ← walk_expression test
        let body_s ← walk_stmt_pieces body
        pure ("if (" ++ t ++ ") \x7b\n\t" ++ String.intercalate "\n" body_s ++ "\x7d\n"))) ∧
    (∀ test body o os, walk_statement (Node.ifStmt test body (o :: os)) =
      (do
        let t ← walk_expression test
        let body_s ← walk_stmt_pieces body
        let orelse_s ← walk_stmt_pieces (o :: os)
        pure ("if (" ++ t ++ ") \x7b\n\t" ++ String.intercalate "\n" body_s ++ "\x7d\n" ++
          "else \x7b\n\t" ++ String.intercalate "\n" orelse_s ++ "\x7d\n"))) ∧
    walk_statement (Node.ifStmt (Node.compare (Node.name "a") [Op.lt] [Node.name "b"])
        [Node.ret (Node.name "a")] []) = Except.ok "if (a < b) \x7b\n\treturn a;\x7d\n" :=
  ⟨fun _ _ => rfl, fun _ _ _ _ => rfl, rfl⟩

/-- C8: a UnaryOp is emitted as the operator tag's class name (not a table
symbol), one space, and the rendering of the operand. -/
theorem claim_C8_unary :
    ∀ (op : Op) (operand : Node),
      walk_expression (Node.unaryOp op operand) =
        (do
          let s ← walk_expression operand
          pure (Op.className op ++ " " ++ s)) :=
  fun _ _ => rfl

/-- C10: a Comparison with no (operator, comparator) pairs renders as the
left operand followed by exactly one trailing space. -/
theorem claim_C10_empty_comparison :
    ∀ (left : Node) (ops : List Op),
      walk_expression (Node.compare left ops []) =
        (do
          let l ← walk_expression left
          pure (l ++ " ")) := by
  intro left ops
  cases hL : walk_expression left with
  | error e => cases ops <;> simp [walk_expression, hL]
  | ok l =>
      cases ops <;>
        (simp [walk_expression, hL, comp_items]
         show l ++ " " ++ "" = l ++ " "
         rw [String.append_empty])

lemma walk_tree_aux_append :
    ∀ (l : List Node) (acc : String) (pieces : List String),
      walk_stmt_pieces l = Except.ok pieces →
      walk_tree_aux acc l = Except.ok (acc ++ concat_all pieces) := by
  intro l
  induction l with
  | nil =>
      intro acc pieces h
      have h2 : (Except.ok [] : Except Err (List String)) = Except.ok pieces := h
      injection h2 with h3
      subst h3
      show Except.ok acc = Except.ok (acc ++ concat_all [])
      rw [concat_all, String.append_empty]
  | cons s rest ih =>
      intro acc pieces h
      simp only [walk_stmt_pieces] at h
      cases h1 : walk_statement s with
      | error e => rw [h1] at h; simp at h
      | ok t =>
          rw [h1] at h
          cases h2 : walk_stmt_pieces rest with
          | error e => rw [h2] at h; simp at h
          | ok ts =>
              rw [h2] at h
              simp only [ok_bind, pure_eq_ok] at h
              injection h with h3
              subst h3
              simp only [walk_tree_aux]
              rw [h1]
              simp only [ok_bind]
              rw [ih (acc ++ t) ts h2, concat_all, ← String.append_assoc]

/-- C9: when every top-level statement emits successfully, the driver output
is exactly the fixed prologue (the single using System import and the
static Program class with its static Main entry point), the concatenation
of the per-statement emissions in input order, and the closing braces. -/
theorem claim_C9_driver :
    ∀ (tree : Module) (pieces : List String),
      walk_stmt_pieces tree.body = Except.ok pieces →
      emit_csharp tree = Except.ok
        ("using System;\npublic class Program \x7b\n\tpublic static void Main(string[] args) \x7b\n"
          ++ concat_all pieces ++ "\x7d\n\x7d\n") := by
  intro tree pieces h
  have h2 := walk_tree_aux_append tree.body "" pieces h
  rw [String.empty_append] at h2
  simp only [emit_csharp, walk_tree]
  rw [h2]
  simp only [ok_bind, pure_eq_ok]

/-- C9 witness: the theorem applied to the one-statement tree of x = 1. -/
theorem claim_C9_witness :
    walk_stmt_pieces [Node.assign [Node.name "x"] (Node.num 1)] = Except.ok ["int x = 1;\n"] ∧
    emit_csharp ⟨[Node.assign [Node.name "x"] (Node.num 1)]⟩ = Except.ok
      ("using System;\npublic class Program \x7b\n\tpublic static void Main(string[] args) \x7b\n"
        ++ concat_all ["int x = 1;\n"] ++ "\x7d\n\x7d\n") :=
  ⟨rfl, claim_C9_driver ⟨[Node.assign [Node.name "x"] (Node.num 1)]⟩ ["int x = 1;\n"] rfl⟩

/-! Success and dispatch lemmas feeding the emitter-totality claim. -/

lemma infer_ok_of_inferOk (e : Node) (h : inferOk e = true) :
    ∃ ty, get_expression_return_type e = Except.ok ty := by
  unfold inferOk at h
  cases hm : get_expression_return_type e with
  | error err => rw [hm] at h; simp at h
  | ok ty => exact ⟨ty, rfl⟩

lemma symbol_ok_of_opHasSymbol (op : Op) (h : opHasSymbol op = true) :
    ∃ s, get_bin_op_symbol op = Except.ok s := by
  unfold opHasSymbol at h
  cases hm : get_bin_op_symbol op with
  | error err => rw [hm] at h; simp at h
  | ok s => exact ⟨s, rfl⟩

lemma infer_ok_of_supportedExpr (e : Node) (h : SupportedExpr e = true) :
    ∃ ty, get_expression_return_type e = Except.ok ty := by
  cases e <;> first | exact ⟨_, rfl⟩ | simp [SupportedExpr] at h

lemma supportedExprList_mem :
    ∀ {l : List Node}, SupportedExprList l = true → ∀ c, c ∈ l → SupportedExpr c = true := by
  intro l
  induction l with
  | nil => intro _ c hc; exact absurd hc (List.not_mem_nil c)
  | cons e rest ih =>
      intro h c hc
      simp only [SupportedExprList, Bool.and_eq_true] at h
      rcases List.mem_cons.mp hc with rfl | hc2
      · exact h.1
      · exact ih h.2 c hc2

lemma bind_ok_exists {α β : Type} {x : Except Err α} {f : α → Except Err β} {a : α}
    (hx : x = Except.ok a) (hf : ∃ b, f a = Except.ok b) : ∃ b, (x >>= f) = Except.ok b := by
  obtain ⟨b, hb⟩ := hf
  refine ⟨b, ?_⟩
  rw [hx]
  simpa using hb

lemma walk_stmt_pieces_ok :
    ∀ (l : List Node),
      (∀ m, m ∈ l → SupportedStmt m = true → ∃ t, walk_statement m = Except.ok t) →
      SupportedStmtList l = true →
      ∃ ps, walk_stmt_pieces l = Except.ok ps := by
  intro l
  induction l with
  | nil => intro _ _; exact ⟨[], rfl⟩
  | cons s rest ih =>
      intro hmem h
      simp only [SupportedStmtList, Bool.and_eq_true] at h
      obtain ⟨t, ht⟩ := hmem s (List.mem_cons_self s rest) h.1
      obtain ⟨ps, hps⟩ := ih (fun m hm hsm => hmem m (List.mem_cons_of_mem s hm) hsm) h.2
      refine ⟨t :: ps, ?_⟩
      simp only [walk_stmt_pieces]
      rw [ht, hps]
      simp

lemma walk_expr_pieces_ok :
    ∀ (l : List Node),
      (∀ m, m ∈ l → SupportedExpr m = true → ∃ t, walk_expression m = Except.ok t) →
      SupportedExprList l = true →
      ∃ ps, walk_expr_pieces l = Except.ok ps := by
  intro l
  induction l with
  | nil => intro _ _; exact ⟨[], rfl⟩
  | cons e rest ih =>
      intro hmem h
      simp only [SupportedExprList, Bool.and_eq_true] at h
      obtain ⟨t, ht⟩ := hmem e (List.mem_cons_self e rest) h.1
      obtain ⟨ps, hps⟩ := ih (fun m hm hsm => hmem m (List.mem_cons_of_mem e hm) hsm) h.2
      refine ⟨t :: ps, ?_⟩
      simp only [walk_expr_pieces]
      rw [ht, hps]
      simp

lemma comp_items_ok :
    ∀ (comparators : List Node) (ops : List Op),
      ops.length = comparators.length →
      (∀ o, o ∈ ops → opHasSymbol o = true) →
      (∀ c, c ∈ comparators → ∃ t, walk_expression c = Except.ok t) →
      ∃ items, comp_items ops comparators = Except.ok items := by
  intro comparators
  induction comparators with
  | nil => intro ops _ _ _; exact ⟨[], by cases ops <;> rfl⟩
  | cons c rest ih =>
      intro ops hlen hops hmem
      cases ops with
      | nil => simp at hlen
      | cons o ops2 =>
          obtain ⟨sym, hsym⟩ := symbol_ok_of_opHasSymbol o (hops o (List.mem_cons_self o ops2))
          obtain ⟨s, hs⟩ := hmem c (List.mem_cons_self c rest)
          obtain ⟨items, hitems⟩ := ih ops2 (by simpa using hlen)
              (fun o2 ho2 => hops o2 (List.mem_cons_of_mem o ho2))
              (fun c2 hc2 => hmem c2 (List.mem_cons_of_mem c hc2))
          refine ⟨(sym ++ " " ++ s) :: items, ?_⟩
          simp only [comp_items]
          rw [hsym, hs, hitems]
          simp

lemma supported_emit_ok_aux :
    ∀ (k : ℕ) (n : Node), sizeOf n < k →
      (SupportedStmt n = true → ∃ t, walk_statement n = Except.ok t) ∧
      (SupportedExpr n = true → ∃ t, walk_expression n = Except.ok t) := by
  intro k
  induction k with
  | zero => intro n hn; exact absurd hn (Nat.not_lt_zero _)
  | succ k ih =>
      intro n hn
      have hk : sizeOf n ≤ k := Nat.lt_succ_iff.mp hn
      constructor
      · intro hs
        cases n
        case functionDef name args body returns =>
            simp only [SupportedStmt, Bool.and_eq_true] at hs
            obtain ⟨hro, hbody⟩ := hs
            obtain ⟨rt, hrt⟩ := infer_ok_of_inferOk returns hro
            obtain ⟨ps, hps⟩ := walk_stmt_pieces_ok body
              (fun m hm hsm => (ih m (by
                have h1 := List.sizeOf_lt_of_mem hm
                have h2 : sizeOf body < sizeOf (Node.functionDef name args body returns) := by
                  simp only [Node.functionDef.sizeOf_spec, Node.classDef.sizeOf_spec, Node.ret.sizeOf_spec, Node.assign.sizeOf_spec, Node.forLoop.sizeOf_spec, Node.whileLoop.sizeOf_spec, Node.ifStmt.sizeOf_spec, Node.exprStmt.sizeOf_spec, Node.binOp.sizeOf_spec, Node.compare.sizeOf_spec, Node.unaryOp.sizeOf_spec, Node.lambda.sizeOf_spec, Node.call.sizeOf_spec, List.cons.sizeOf_spec]; omega
                omega)).1 hsm) hbody
            exact bind_ok_exists hrt (bind_ok_exists hps ⟨_, rfl⟩)
        case classDef name bases body =>
            simp only [SupportedStmt, Bool.and_eq_true] at hs
            obtain ⟨hbases, hbody⟩ := hs
            obtain ⟨bs, hbs⟩ := walk_expr_pieces_ok bases
              (fun m hm hsm => (ih m (by
                have h1 := List.sizeOf_lt_of_mem hm
                have h2 : sizeOf bases < sizeOf (Node.classDef name bases body) := by
                  simp only [Node.functionDef.sizeOf_spec, Node.classDef.sizeOf_spec, Node.ret.sizeOf_spec, Node.assign.sizeOf_spec, Node.forLoop.sizeOf_spec, Node.whileLoop.sizeOf_spec, Node.ifStmt.sizeOf_spec, Node.exprStmt.sizeOf_spec, Node.binOp.sizeOf_spec, Node.compare.sizeOf_spec, Node.unaryOp.sizeOf_spec, Node.lambda.sizeOf_spec, Node.call.sizeOf_spec, List.cons.sizeOf_spec]; omega
                omega)).2 hsm) hbases
            obtain ⟨ps, hps⟩ := walk_stmt_pieces_ok body
              (fun m hm hsm => (ih m (by
                have h1 := List.sizeOf_lt_of_mem hm
                have h2 : sizeOf body < sizeOf (Node.classDef name bases body) := by
                  simp only [Node.functionDef.sizeOf_spec, Node.classDef.sizeOf_spec, Node.ret.sizeOf_spec, Node.assign.sizeOf_spec, Node.forLoop.sizeOf_spec, Node.whileLoop.sizeOf_spec, Node.ifStmt.sizeOf_spec, Node.exprStmt.sizeOf_spec, Node.binOp.sizeOf_spec, Node.compare.sizeOf_spec, Node.unaryOp.sizeOf_spec, Node.lambda.sizeOf_spec, Node.call.sizeOf_spec, List.cons.sizeOf_spec]; omega
                omega)).1 hsm) hbody
            exact bind_ok_exists hbs (bind_ok_exists hps ⟨_, rfl⟩)
        case ret value =>
            simp only [SupportedStmt] at hs
            obtain ⟨v, hv⟩ := (ih value (by
              have h2 : sizeOf value < sizeOf (Node.ret value) := by simp only [Node.functionDef.sizeOf_spec, Node.classDef.sizeOf_spec, Node.ret.sizeOf_spec, Node.assign.sizeOf_spec, Node.forLoop.sizeOf_spec, Node.whileLoop.sizeOf_spec, Node.ifStmt.sizeOf_spec, Node.exprStmt.sizeOf_spec, Node.binOp.sizeOf_spec, Node.compare.sizeOf_spec, Node.unaryOp.sizeOf_spec, Node.lambda.sizeOf_spec, Node.call.sizeOf_spec, List.cons.sizeOf_spec]; omega
              omega)).2 hs
            exact bind_ok_exists hv ⟨_, rfl⟩
        case assign targets value =>
            simp only [SupportedStmt, Bool.and_eq_true] at hs
            obtain ⟨hmatch, hval⟩ := hs
            cases targets with
            | nil => simp at hmatch
            | cons target rest =>
                obtain ⟨ty, hty⟩ := infer_ok_of_supportedExpr value hval
                obtain ⟨t, ht⟩ := (ih target (by
                  have h2 : sizeOf target < sizeOf (Node.assign (target :: rest) value) := by
                    simp only [Node.functionDef.sizeOf_spec, Node.classDef.sizeOf_spec, Node.ret.sizeOf_spec, Node.assign.sizeOf_spec, Node.forLoop.sizeOf_spec, Node.whileLoop.sizeOf_spec, Node.ifStmt.sizeOf_spec, Node.exprStmt.sizeOf_spec, Node.binOp.sizeOf_spec, Node.compare.sizeOf_spec, Node.unaryOp.sizeOf_spec, Node.lambda.sizeOf_spec, Node.call.sizeOf_spec, List.cons.sizeOf_spec]; omega
                  omega)).2 hmatch
                obtain ⟨v, hv⟩ := (ih value (by
                  have h2 : sizeOf value < sizeOf (Node.assign (target :: rest) value) := by
                    simp only [Node.functionDef.sizeOf_spec, Node.classDef.sizeOf_spec, Node.ret.sizeOf_spec, Node.assign.sizeOf_spec, Node.forLoop.sizeOf_spec, Node.whileLoop.sizeOf_spec, Node.ifStmt.sizeOf_spec, Node.exprStmt.sizeOf_spec, Node.binOp.sizeOf_spec, Node.compare.sizeOf_spec, Node.unaryOp.sizeOf_spec, Node.lambda.sizeOf_spec, Node.call.sizeOf_spec, List.cons.sizeOf_spec]; omega
                  omega)).2 hval
                rw [walk_assign_cons]
                exact bind_ok_exists hty (bind_ok_exists ht (bind_ok_exists hv ⟨_, rfl⟩))
        case forLoop target iter body orelse =>
            simp only [SupportedStmt, Bool.and_eq_true] at hs
            obtain ⟨⟨htarget, hiter⟩, hbody⟩ := hs
            obtain ⟨t, ht⟩ := (ih target (by
              have h2 : sizeOf target < sizeOf (Node.forLoop target iter body orelse) := by
                simp only [Node.functionDef.sizeOf_spec, Node.classDef.sizeOf_spec, Node.ret.sizeOf_spec, Node.assign.sizeOf_spec, Node.forLoop.sizeOf_spec, Node.whileLoop.sizeOf_spec, Node.ifStmt.sizeOf_spec, Node.exprStmt.sizeOf_spec, Node.binOp.sizeOf_spec, Node.compare.sizeOf_spec, Node.unaryOp.sizeOf_spec, Node.lambda.sizeOf_spec, Node.call.sizeOf_spec, List.cons.sizeOf_spec]; omega
              omega)).2 htarget
            obtain ⟨i, hi⟩ := (ih iter (by
              have h2 : sizeOf iter < sizeOf (Node.forLoop target iter body orelse) := by
                simp only [Node.functionDef.sizeOf_spec, Node.classDef.sizeOf_spec, Node.ret.sizeOf_spec, Node.assign.sizeOf_spec, Node.forLoop.sizeOf_spec, Node.whileLoop.sizeOf_spec, Node.ifStmt.sizeOf_spec, Node.exprStmt.sizeOf_spec, Node.binOp.sizeOf_spec, Node.compare.sizeOf_spec, Node.unaryOp.sizeOf_spec, Node.lambda.sizeOf_spec, Node.call.sizeOf_spec, List.cons.sizeOf_spec]; omega
              omega)).2 hiter
            obtain ⟨ps, hps⟩ := walk_stmt_pieces_ok body
              (fun m hm hsm => (ih m (by
                have h1 := List.sizeOf_lt_of_mem hm
                have h2 : sizeOf body < sizeOf (Node.forLoop target iter body orelse) := by
                  simp only [Node.functionDef.sizeOf_spec, Node.classDef.sizeOf_spec, Node.ret.sizeOf_spec, Node.assign.sizeOf_spec, Node.forLoop.sizeOf_spec, Node.whileLoop.sizeOf_spec, Node.ifStmt.sizeOf_spec, Node.exprStmt.sizeOf_spec, Node.binOp.sizeOf_spec, Node.compare.sizeOf_spec, Node.unaryOp.sizeOf_spec, Node.lambda.sizeOf_spec, Node.call.sizeOf_spec, List.cons.sizeOf_spec]; omega
                omega)).1 hsm) hbody
            exact bind_ok_exists ht (bind_ok_exists hi (bind_ok_exists hps ⟨_, rfl⟩))
        case whileLoop test body orelse =>
            simp only [SupportedStmt, Bool.and_eq_true] at hs
            obtain ⟨htest, hbody⟩ := hs
            obtain ⟨t, ht⟩ := (ih test (by
              have h2 : sizeOf test < sizeOf (Node.whileLoop test body orelse) := by
                simp only [Node.functionDef.sizeOf_spec, Node.classDef.sizeOf_spec, Node.ret.sizeOf_spec, Node.assign.sizeOf_spec, Node.forLoop.sizeOf_spec, Node.whileLoop.sizeOf_spec, Node.ifStmt.sizeOf_spec, Node.exprStmt.sizeOf_spec, Node.binOp.sizeOf_spec, Node.compare.sizeOf_spec, Node.unaryOp.sizeOf_spec, Node.lambda.sizeOf_spec, Node.call.sizeOf_spec, List.cons.sizeOf_spec]; omega
              omega)).2 htest
            obtain ⟨ps, hps⟩ := walk_stmt_pieces_ok body
              (fun m hm hsm => (ih m (by
                have h1 := List.sizeOf_lt_of_mem hm
                have h2 : sizeOf body < sizeOf (Node.whileLoop test body orelse) := by
                  simp only [Node.functionDef.sizeOf_spec, Node.classDef.sizeOf_spec, Node.ret.sizeOf_spec, Node.assign.sizeOf_spec, Node.forLoop.sizeOf_spec, Node.whileLoop.sizeOf_spec, Node.ifStmt.sizeOf_spec, Node.exprStmt.sizeOf_spec, Node.binOp.sizeOf_spec, Node.compare.sizeOf_spec, Node.unaryOp.sizeOf_spec, Node.lambda.sizeOf_spec, Node.call.sizeOf_spec, List.cons.sizeOf_spec]; omega
                omega)).1 hsm) hbody
            exact bind_ok_exists ht (bind_ok_exists hps ⟨_, rfl⟩)
        case ifStmt test body orelse =>
            simp only [SupportedStmt, Bool.and_eq_true] at hs
            obtain ⟨⟨htest, hbody⟩, horelse⟩ := hs
            obtain ⟨t, ht⟩ := (ih test (by
              have h2 : sizeOf test < sizeOf (Node.ifStmt test body orelse) := by
                simp only [Node.functionDef.sizeOf_spec, Node.classDef.sizeOf_spec, Node.ret.sizeOf_spec, Node.assign.sizeOf_spec, Node.forLoop.sizeOf_spec, Node.whileLoop.sizeOf_spec, Node.ifStmt.sizeOf_spec, Node.exprStmt.sizeOf_spec, Node.binOp.sizeOf_spec, Node.compare.sizeOf_spec, Node.unaryOp.sizeOf_spec, Node.lambda.sizeOf_spec, Node.call.sizeOf_spec, List.cons.sizeOf_spec]; omega
              omega)).2 htest
            obtain ⟨ps, hps⟩ := walk_stmt_pieces_ok body
              (fun m hm hsm => (ih m (by
                have h1 := List.sizeOf_lt_of_mem hm
                have h2 : sizeOf body < sizeOf (Node.ifStmt test body orelse) := by
                  simp only [Node.functionDef.sizeOf_spec, Node.classDef.sizeOf_spec, Node.ret.sizeOf_spec, Node.assign.sizeOf_spec, Node.forLoop.sizeOf_spec, Node.whileLoop.sizeOf_spec, Node.ifStmt.sizeOf_spec, Node.exprStmt.sizeOf_spec, Node.binOp.sizeOf_spec, Node.compare.sizeOf_spec, Node.unaryOp.sizeOf_spec, Node.lambda.sizeOf_spec, Node.call.sizeOf_spec, List.cons.sizeOf_spec]; omega
                omega)).1 hsm) hbody
            obtain ⟨os, hos⟩ := walk_stmt_pieces_ok orelse
              (fun m hm hsm => (ih m (by
                have h1 := List.sizeOf_lt_of_mem hm
                have h2 : sizeOf orelse < sizeOf (Node.ifStmt test body orelse) := by
                  simp only [Node.functionDef.sizeOf_spec, Node.classDef.sizeOf_spec, Node.ret.sizeOf_spec, Node.assign.sizeOf_spec, Node.forLoop.sizeOf_spec, Node.whileLoop.sizeOf_spec, Node.ifStmt.sizeOf_spec, Node.exprStmt.sizeOf_spec, Node.binOp.sizeOf_spec, Node.compare.sizeOf_spec, Node.unaryOp.sizeOf_spec, Node.lambda.sizeOf_spec, Node.call.sizeOf_spec, List.cons.sizeOf_spec]; omega
                omega)).1 hsm) horelse
            by_cases hlen : orelse.length = 0
            · have hred : walk_statement (Node.ifStmt test body orelse) =
                  (do
                    let t ← walk_expression test
                    let body_s ← walk_stmt_pieces body
                    pure ("if (" ++ t ++ ") \x7b\n\t" ++ String.intercalate "\n" body_s ++
                      "\x7d\n")) := by
                simp only [walk_statement, if_pos hlen]
              rw [hred]
              exact bind_ok_exists ht (bind_ok_exists hps ⟨_, rfl⟩)
            · have hred : walk_statement (Node.ifStmt test body orelse) =
                  (do
                    let t ← walk_expression test
                    let body_s ← walk_stmt_pieces body
                    let orelse_s ← walk_stmt_pieces orelse
                    pure ("if (" ++ t ++ ") \x7b\n\t" ++ String.intercalate "\n" body_s ++
                      "\x7d\n" ++ "else \x7b\n\t" ++ String.intercalate "\n" orelse_s ++
                      "\x7d\n")) := by
                simp only [walk_statement, if_neg hlen]
              rw [hred]
              exact bind_ok_exists ht (bind_ok_exists hps (bind_ok_exists hos ⟨_, rfl⟩))
        case exprStmt value =>
            simp only [SupportedStmt] at hs
            obtain ⟨v, hv⟩ := (ih value (by
              have h2 : sizeOf value < sizeOf (Node.exprStmt value) := by simp only [Node.functionDef.sizeOf_spec, Node.classDef.sizeOf_spec, Node.ret.sizeOf_spec, Node.assign.sizeOf_spec, Node.forLoop.sizeOf_spec, Node.whileLoop.sizeOf_spec, Node.ifStmt.sizeOf_spec, Node.exprStmt.sizeOf_spec, Node.binOp.sizeOf_spec, Node.compare.sizeOf_spec, Node.unaryOp.sizeOf_spec, Node.lambda.sizeOf_spec, Node.call.sizeOf_spec, List.cons.sizeOf_spec]; omega
              omega)).2 hs
            exact bind_ok_exists hv ⟨_, rfl⟩
        all_goals simp [SupportedStmt] at hs
      · intro hs
        cases n
        case binOp left op right =>
            simp only [SupportedExpr, Bool.and_eq_true] at hs
            obtain ⟨⟨hleft, hop⟩, hright⟩ := hs
            obtain ⟨ls, hls⟩ := (ih left (by
              have h2 : sizeOf left < sizeOf (Node.binOp left op right) := by simp only [Node.functionDef.sizeOf_spec, Node.classDef.sizeOf_spec, Node.ret.sizeOf_spec, Node.assign.sizeOf_spec, Node.forLoop.sizeOf_spec, Node.whileLoop.sizeOf_spec, Node.ifStmt.sizeOf_spec, Node.exprStmt.sizeOf_spec, Node.binOp.sizeOf_spec, Node.compare.sizeOf_spec, Node.unaryOp.sizeOf_spec, Node.lambda.sizeOf_spec, Node.call.sizeOf_spec, List.cons.sizeOf_spec]; omega
              omega)).2 hleft
            obtain ⟨sym, hsym⟩ := symbol_ok_of_opHasSymbol op hop
            obtain ⟨rs, hrs⟩ := (ih right (by
              have h2 : sizeOf right < sizeOf (Node.binOp left op right) := by simp only [Node.functionDef.sizeOf_spec, Node.classDef.sizeOf_spec, Node.ret.sizeOf_spec, Node.assign.sizeOf_spec, Node.forLoop.sizeOf_spec, Node.whileLoop.sizeOf_spec, Node.ifStmt.sizeOf_spec, Node.exprStmt.sizeOf_spec, Node.binOp.sizeOf_spec, Node.compare.sizeOf_spec, Node.unaryOp.sizeOf_spec, Node.lambda.sizeOf_spec, Node.call.sizeOf_spec, List.cons.sizeOf_spec]; omega
              omega)).2 hright
            exact bind_ok_exists hls (bind_ok_exists hsym (bind_ok_exists hrs ⟨_, rfl⟩))
        case compare left ops comparators =>
            simp only [SupportedExpr, Bool.and_eq_true, beq_iff_eq, List.all_eq_true] at hs
            obtain ⟨⟨⟨hleft, hlen⟩, hall⟩, hcs⟩ := hs
            obtain ⟨ls, hls⟩ := (ih left (by
              have h2 : sizeOf left < sizeOf (Node.compare left ops comparators) := by
                simp only [Node.functionDef.sizeOf_spec, Node.classDef.sizeOf_spec, Node.ret.sizeOf_spec, Node.assign.sizeOf_spec, Node.forLoop.sizeOf_spec, Node.whileLoop.sizeOf_spec, Node.ifStmt.sizeOf_spec, Node.exprStmt.sizeOf_spec, Node.binOp.sizeOf_spec, Node.compare.sizeOf_spec, Node.unaryOp.sizeOf_spec, Node.lambda.sizeOf_spec, Node.call.sizeOf_spec, List.cons.sizeOf_spec]; omega
              omega)).2 hleft
            obtain ⟨items, hitems⟩ := comp_items_ok comparators ops hlen
              (fun o ho => hall o ho)
              (fun c hc => (ih c (by
                have h1 := List.sizeOf_lt_of_mem hc
                have h2 : sizeOf comparators < sizeOf (Node.compare left ops comparators) := by
                  simp only [Node.functionDef.sizeOf_spec, Node.classDef.sizeOf_spec, Node.ret.sizeOf_spec, Node.assign.sizeOf_spec, Node.forLoop.sizeOf_spec, Node.whileLoop.sizeOf_spec, Node.ifStmt.sizeOf_spec, Node.exprStmt.sizeOf_spec, Node.binOp.sizeOf_spec, Node.compare.sizeOf_spec, Node.unaryOp.sizeOf_spec, Node.lambda.sizeOf_spec, Node.call.sizeOf_spec, List.cons.sizeOf_spec]; omega
                omega)).2 (supportedExprList_mem hcs c hc))
            exact bind_ok_exists hls (bind_ok_exists hitems ⟨_, rfl⟩)
        case unaryOp op operand =>
            simp only [SupportedExpr] at hs
            obtain ⟨s, hso⟩ := (ih operand (by
              have h2 : sizeOf operand < sizeOf (Node.unaryOp op operand) := by simp only [Node.functionDef.sizeOf_spec, Node.classDef.sizeOf_spec, Node.ret.sizeOf_spec, Node.assign.sizeOf_spec, Node.forLoop.sizeOf_spec, Node.whileLoop.sizeOf_spec, Node.ifStmt.sizeOf_spec, Node.exprStmt.sizeOf_spec, Node.binOp.sizeOf_spec, Node.compare.sizeOf_spec, Node.unaryOp.sizeOf_spec, Node.lambda.sizeOf_spec, Node.call.sizeOf_spec, List.cons.sizeOf_spec]; omega
              omega)).2 hs
            exact bind_ok_exists hso ⟨_, rfl⟩
        case lambda args body =>
            simp only [SupportedExpr] at hs
            obtain ⟨b, hb⟩ := (ih body (by
              have h2 : sizeOf body < sizeOf (Node.lambda args body) := by simp only [Node.functionDef.sizeOf_spec, Node.classDef.sizeOf_spec, Node.ret.sizeOf_spec, Node.assign.sizeOf_spec, Node.forLoop.sizeOf_spec, Node.whileLoop.sizeOf_spec, Node.ifStmt.sizeOf_spec, Node.exprStmt.sizeOf_spec, Node.binOp.sizeOf_spec, Node.compare.sizeOf_spec, Node.unaryOp.sizeOf_spec, Node.lambda.sizeOf_spec, Node.call.sizeOf_spec, List.cons.sizeOf_spec]; omega
              omega)).2 hs
            exact bind_ok_exists hb ⟨_, rfl⟩
        case call func args =>
            simp only [SupportedExpr, Bool.and_eq_true] at hs
            obtain ⟨hfunc, hargs⟩ := hs
            obtain ⟨f, hf⟩ := (ih func (by
              have h2 : sizeOf func < sizeOf (Node.call func args) := by simp only [Node.functionDef.sizeOf_spec, Node.classDef.sizeOf_spec, Node.ret.sizeOf_spec, Node.assign.sizeOf_spec, Node.forLoop.sizeOf_spec, Node.whileLoop.sizeOf_spec, Node.ifStmt.sizeOf_spec, Node.exprStmt.sizeOf_spec, Node.binOp.sizeOf_spec, Node.compare.sizeOf_spec, Node.unaryOp.sizeOf_spec, Node.lambda.sizeOf_spec, Node.call.sizeOf_spec, List.cons.sizeOf_spec]; omega
              omega)).2 hfunc
            obtain ⟨ps, hps⟩ := walk_expr_pieces_ok args
              (fun m hm hsm => (ih m (by
                have h1 := List.sizeOf_lt_of_mem hm
                have h2 : sizeOf args < sizeOf (Node.call func args) := by simp only [Node.functionDef.sizeOf_spec, Node.classDef.sizeOf_spec, Node.ret.sizeOf_spec, Node.assign.sizeOf_spec, Node.forLoop.sizeOf_spec, Node.whileLoop.sizeOf_spec, Node.ifStmt.sizeOf_spec, Node.exprStmt.sizeOf_spec, Node.binOp.sizeOf_spec, Node.compare.sizeOf_spec, Node.unaryOp.sizeOf_spec, Node.lambda.sizeOf_spec, Node.call.sizeOf_spec, List.cons.sizeOf_spec]; omega
                omega)).2 hsm) hargs
            exact bind_ok_exists hf (bind_ok_exists hps ⟨_, rfl⟩)
        case num n2 => exact ⟨_, rfl⟩
        case str s2 => exact ⟨_, rfl⟩
        case name id => exact ⟨_, rfl⟩
        all_goals simp [SupportedExpr] at hs

lemma walk_statement_ok_ne_empty :
    ∀ (s : Node) (t : String), walk_statement s = Except.ok t → t ≠ "" := by
  intro s t h
  cases s
  case functionDef name args body returns =>
      simp only [walk_statement, bind_eq_ok, pure_eq_ok, Except.ok.injEq] at h
      obtain ⟨rt, hrt, ps, hps, h4⟩ := h
      subst h4
      exact append_ne_empty_right _ _ (by decide)
  case classDef name bases body =>
      simp only [walk_statement, bind_eq_ok, pure_eq_ok, Except.ok.injEq] at h
      obtain ⟨bs, hbs, ps, hps, h4⟩ := h
      subst h4
      exact append_ne_empty_right _ _ (by decide)
  case ret value =>
      simp only [walk_statement, bind_eq_ok, pure_eq_ok, Except.ok.injEq] at h
      obtain ⟨v, hv, h4⟩ := h
      subst h4
      exact append_ne_empty_right _ _ (by decide)
  case assign targets value =>
      cases targets with
      | nil =>
          simp only [walk_statement, bind_eq_ok] at h
          obtain ⟨ty, hty, h2⟩ := h
          exact Except.noConfusion h2
      | cons target rest =>
          rw [walk_assign_cons] at h
          simp only [bind_eq_ok, pure_eq_ok, Except.ok.injEq] at h
          obtain ⟨ty, hty, t2, ht2, v, hv, h4⟩ := h
          subst h4
          exact append_ne_empty_right _ _ (by decide)
  case forLoop target iter body orelse =>
      simp only [walk_statement, bind_eq_ok, pure_eq_ok, Except.ok.injEq] at h
      obtain ⟨t2, ht2, i, hi, ps, hps, h4⟩ := h
      subst h4
      exact append_ne_empty_right _ _ (by decide)
  case whileLoop test body orelse =>
      simp only [walk_statement, bind_eq_ok, pure_eq_ok, Except.ok.injEq] at h
      obtain ⟨t2, ht2, ps, hps, h4⟩ := h
      subst h4
      exact append_ne_empty_right _ _ (by decide)
  case ifStmt test body orelse =>
      simp only [walk_statement] at h
      split at h
      · simp only [bind_eq_ok, pure_eq_ok, Except.ok.injEq] at h
        obtain ⟨t2, ht2, ps, hps, h4⟩ := h
        subst h4
        exact append_ne_empty_right _ _ (by decide)
      · simp only [bind_eq_ok, pure_eq_ok, Except.ok.injEq] at h
        obtain ⟨t2, ht2, ps, hps, os, hos, h4⟩ := h
        subst h4
        exact append_ne_empty_right _ _ (by decide)
  case exprStmt value =>
      simp only [walk_statement, bind_eq_ok, pure_eq_ok, Except.ok.injEq] at h
      obtain ⟨v, hv, h4⟩ := h
      subst h4
      exact append_ne_empty_right _ _ (by decide)
  all_goals exact Except.noConfusion h

lemma unsupported_stmt_error :
    ∀ s, isStmtKind s = false →
      walk_statement s = Except.error (Err.unsupportedStatement (Node.className s)) := by
  intro s h
  cases s <;> first | rfl | simp [isStmtKind] at h

lemma unsupported_expr_error :
    ∀ e, isExprKind e = false →
      walk_expression e = Except.error (Err.unsupportedExpression (Node.className e)) := by
  intro e h
  cases e <;> first | rfl | simp [isExprKind] at h

/-- C2 counterexample: Return is one of the eight supported statement kinds,
yet a Return node whose value is an unsupported expression kind makes the
statement emitter fail instead of returning non-empty text, so the claim as
stated is false. -/
theorem claim_C2_counterexample :
    isStmtKind (Node.ret Node.listLit) = true ∧
    walk_statement (Node.ret Node.listLit) = Except.error (Err.unsupportedExpression "List") :=
  ⟨rfl, rfl⟩

/-- C2 as amended: any text the statement emitter returns is non-empty; a
statement node of a supported kind whose nested nodes are all supported
emits successfully (otherwise the nested failure propagates); every
statement node of any other kind fails with UnsupportedStatement naming
that kind; the expression emitter has a case for each of the nine supported
expression kinds, but its BooleanOp case always fails with an attribute
error on the missing left field, the other eight succeed whenever nested
nodes are supported, and every other expression kind fails with
UnsupportedExpression naming the kind. -/
theorem claim_C2_amended :
    (∀ s t, walk_statement s = Except.ok t → t ≠ "") ∧
    (∀ s, SupportedStmt s = true → ∃ t, walk_statement s = Except.ok t) ∧
    (∀ s, isStmtKind s = false →
      walk_statement s = Except.error (Err.unsupportedStatement (Node.className s))) ∧
    (∀ op values, walk_expression (Node.boolOp op values) =
      Except.error (Err.attributeError "left")) ∧
    (∀ e, SupportedExpr e = true → ∃ t, walk_expression e = Except.ok t) ∧
    (∀ e, isExprKind e = false →
      walk_expression e = Except.error (Err.unsupportedExpression (Node.className e))) := by
  refine ⟨walk_statement_ok_ne_empty, ?_, unsupported_stmt_error, fun _ _ => rfl, ?_,
    unsupported_expr_error⟩
  · intro s hs
    exact (supported_emit_ok_aux (sizeOf s + 1) s (Nat.lt_succ_self _)).1 hs
  · intro e he
    exact (supported_emit_ok_aux (sizeOf e + 1) e (Nat.lt_succ_self _)).2 he

/-- C2 witness: the amended theorem applied at concrete nodes — a Return of
an identifier emits non-empty text, a Try statement and a List expression
fail with errors naming their kinds, and a BooleanOp fails with the
attribute error. -/
theorem claim_C2_witness :
    ("return a;" ≠ "") ∧
    (∃ t, walk_statement (Node.ret (Node.name "a")) = Except.ok t) ∧
    (walk_statement Node.tryStmt = Except.error (Err.unsupportedStatement "Try")) ∧
    (walk_expression (Node.boolOp Op.or_ [Node.name "b"]) =
      Except.error (Err.attributeError "left")) ∧
    (∃ t, walk_expression (Node.num 5) = Except.ok t) ∧
    (walk_expression Node.dictLit = Except.error (Err.unsupportedExpression "Dict")) :=
  ⟨claim_C2_amended.1 (Node.ret (Node.name "a")) "return a;" rfl,
   claim_C2_amended.2.1 (Node.ret (Node.name "a")) rfl,
   claim_C2_amended.2.2.1 Node.tryStmt rfl,
   claim_C2_amended.2.2.2.1 Op.or_ [Node.name "b"],
   claim_C2_amended.2.2.2.2.1 (Node.num 5) rfl,
   claim_C2_amended.2.2.2.2.2 Node.dictLit rfl⟩

end Py2cs
